import Mathlib

/-!
Verification of the TrendMiner upload-validation pipeline
(`trendminer/validators.py`) against its natural-language specification.

The Python validators are embedded shallowly: Python strings become Lean
`String`, the results of filesystem and subprocess effects (the MIME
sniffer, `ZipFile` construction, `testzip`, `namelist`, archive
extraction, directory listing, `xmlwf`, `xmllint`) are captured in an
explicit environment record `Env`, and each validator becomes a pure
function from the uploaded file and that environment to
`Option ValidationError` (`none` = the stage passes, `some e` = the stage
raises `ValidationError e`).
-/

/-- Python `s.endswith(t)`: `t` is a suffix of `s` as a character sequence. -/
def pyEndsWith (s t : String) : Bool :=
  decide (t.data <:+ s.data)

/-- Python `s.lower()`: lowercase every character (ASCII letters). -/
def pyLower (s : String) : String :=
  ⟨s.data.map Char.toLower⟩

/-- Index of the last occurrence of a dot in a character list, if any. -/
def lastDotIndex (cs : List Char) : Option Nat :=
  cs.enum.foldl (fun acc p => if p.2 = '.' then some p.1 else acc) none

/-- Python `os.path.splitext(name)[1]` for a plain file name (no directory
separators, which Django upload names do not contain): the extension starts
at the last dot, unless every character before that dot is itself a dot
(as in `.bashrc` or `..zip`), in which case the extension is empty. -/
def splitext_ext (name : String) : String :=
  match lastDotIndex name.data with
  | none => ""
  | some i =>
    if (name.data.take i).all (fun c => c == '.') then ""
    else ⟨name.data.drop i⟩

/-- An uploaded file as the validators see it: its (base) name and its
byte size (`uploaded_file.name`, `uploaded_file.size`). -/
structure UploadedFile where
  name : String
  size : Nat
deriving DecidableEq, Repr

/-- The configuration the validators read from `settings`. -/
structure Settings where
  MAX_UPLOAD_SIZE : Nat
  XML_MIME_TYPES : List String
  ZIP_MIME_TYPES : List String
deriving DecidableEq, Repr

/-- One message per distinct `raise ValidationError(...)` site in
`validators.py`, carrying exactly the data interpolated into the message. -/
inductive ValidationError where
  | Extension : ValidationError
  | Size : Nat → ValidationError
  | MimeType : String → String → ValidationError
  | ZipIntegrityCorruptedArchive : ValidationError
  | ZipIntegrityCorruptedFiles : ValidationError
  | ZipContents : ValidationError
  | XmlWellFormednessArchive : ValidationError
  | XmlWellFormednessSingle : ValidationError
  | XmlSchemaConformityArchive : ValidationError
  | XmlSchemaConformitySingle : ValidationError
deriving DecidableEq, Repr

/-- Outcome of `ZipFile(path)` followed by `archive.testzip()` inside
`validate_zip_integrity`: an `IOError` escaping either call, a
`zipfile.error` (`BadZipFile`), or a completed integrity test returning
the name of the first corrupted member or `None`. -/
inductive IntegrityResult where
  | ioError : IntegrityResult
  | badZip : IntegrityResult
  | tested : Option String → IntegrityResult
deriving DecidableEq, Repr

/-- Outcome of `ZipFile(path)` followed by `archive.namelist()` inside
`validate_zip_contents`: failure (`IOError` or `BadZipFile`) or the list
of entry names. -/
inductive ContentsResult where
  | failed : ContentsResult
  | listed : List String → ContentsResult
deriving DecidableEq, Repr

/-- The external world of one validation run: everything the validators
obtain from the filesystem and from subprocesses, recorded per call site. -/
structure Env where
  /-- Raw stdout of `file --mime-type <path>` in `validate_mime_type`. -/
  mimeOutput : String
  /-- Outcome of open + `testzip` in `validate_zip_integrity`. -/
  integrity : IntegrityResult
  /-- Outcome of open + `namelist` in `validate_zip_contents`. -/
  contents : ContentsResult
  /-- `extract_archive` result in `validate_xml_well_formedness`:
  the produced folder name, or `none` on extraction failure. -/
  wfExtract : Option String
  /-- `extract_archive` result in `validate_against_schema`. -/
  schemaExtract : Option String
  /-- `listdir` of an extracted folder. -/
  listdir : String → List String
  /-- stdout of `xmlwf` on a member of an extracted folder. -/
  xmlwf : String → String → String
  /-- stdout of `xmlwf` on the uploaded `.xml` file itself. -/
  xmlwfSingle : String
  /-- exit status of `xmllint --noout --schema` on a member. -/
  xmllint : String → String → Int
  /-- exit status of `xmllint --noout --schema` on the uploaded file. -/
  xmllintSingle : Int

/-- `validate_extension`: reject unless the lowercased name ends in
`zip` or `xml` (note: the code checks the bare suffixes, without a dot). -/
def validate_extension (f : UploadedFile) : Option ValidationError :=
  if !(pyEndsWith (pyLower f.name) "zip" || pyEndsWith (pyLower f.name) "xml") then
    some .Extension
  else
    none

/-- `validate_size`: reject when the size strictly exceeds
`MAX_UPLOAD_SIZE`; the message carries `MAX_UPLOAD_SIZE/(1024**2)`
(Python 2 integer floor division). -/
def validate_size (s : Settings) (f : UploadedFile) : Option ValidationError :=
  if f.size > s.MAX_UPLOAD_SIZE then
    some (.Size (s.MAX_UPLOAD_SIZE / 1024 ^ 2))
  else
    none

/-- Python `s.strip()`: remove leading and trailing whitespace. -/
def py_strip (s : String) : String :=
  ⟨((s.data.dropWhile Char.isWhitespace).reverse.dropWhile
      Char.isWhitespace).reverse⟩

/-- Python `s.split(': ')` on character lists: scan left to right, cut at
each non-overlapping occurrence of the two-character separator. `acc`
holds the current token reversed. -/
def py_split_colon_space (acc : List Char) : List Char → List (List Char)
  | ':' :: ' ' :: rest => acc.reverse :: py_split_colon_space [] rest
  | c :: rest => py_split_colon_space (c :: acc) rest
  | [] => [acc.reverse]

/-- `subproc.stdout.read().strip().split(': ')[-1]`: the last token of the
stripped sniffer output split on the separator `': '`. Python `split` on
a nonempty separator always returns a nonempty list, so the `[-1]` index
never fails; `getLastD` mirrors that total behaviour. -/
def parse_mime (out : String) : String :=
  ⟨(py_split_colon_space [] (py_strip out).data).getLastD []⟩

/-- `validate_mime_type`: compare the `splitext` extension (case
sensitively) with `.zip` / `.xml` and require the detected MIME type to
be in the corresponding allow-set; any other extension is not checked. -/
def validate_mime_type (s : Settings) (env : Env) (f : UploadedFile) :
    Option ValidationError :=
  let mime_type := parse_mime env.mimeOutput
  let file_extension := splitext_ext f.name
  if file_extension = ".zip" ∧ mime_type ∉ s.ZIP_MIME_TYPES then
    some (.MimeType ".zip" mime_type)
  else if file_extension = ".xml" ∧ mime_type ∉ s.XML_MIME_TYPES then
    some (.MimeType ".xml" mime_type)
  else
    none

/-- `validate_zip_integrity`: only for names ending (case sensitively) in
the bare suffix `zip`. `IOError` during open/test raises; `BadZipFile`
is swallowed; a truthy (nonempty) corrupted-member name raises. -/
def validate_zip_integrity (env : Env) (f : UploadedFile) :
    Option ValidationError :=
  if pyEndsWith f.name "zip" then
    match env.integrity with
    | .ioError => some .ZipIntegrityCorruptedArchive
    | .badZip => none
    | .tested corrupted_file =>
      match corrupted_file with
      | some n => if n ≠ "" then some .ZipIntegrityCorruptedFiles else none
      | none => none
  else
    none

/-- `validate_zip_contents`: only for names ending (case sensitively) in
the bare suffix `zip`. Open/list failures leave `contents = []`; reject
when any listed entry does not end in the bare suffix `xml`. -/
def validate_zip_contents (env : Env) (f : UploadedFile) :
    Option ValidationError :=
  if pyEndsWith f.name "zip" then
    let contents := match env.contents with
      | .failed => []
      | .listed names => names
    if contents.any (fun item => !(pyEndsWith item "xml")) then
      some .ZipContents
    else
      none
  else
    none

/-- `validate_xml_well_formedness`: dispatch on the `splitext` extension.
For `.zip`, extract; if extraction produced a folder, run `xmlwf` over
every listed member ending in `.xml` except `om.xml`, rejecting on any
nonempty output. For `.xml`, run `xmlwf` on the file itself. -/
def validate_xml_well_formedness (env : Env) (f : UploadedFile) :
    Option ValidationError :=
  let file_type := splitext_ext f.name
  if file_type = ".zip" then
    match env.wfExtract with
    | some folder_name =>
      if (env.listdir folder_name).any (fun file_name =>
          pyEndsWith file_name ".xml" && file_name != "om.xml" &&
            env.xmlwf folder_name file_name != "") then
        some .XmlWellFormednessArchive
      else
        none
    | none => none
  else if file_type = ".xml" then
    if env.xmlwfSingle ≠ "" then some .XmlWellFormednessSingle else none
  else
    none

/-- `validate_against_schema`: same dispatch and member filter as the
well-formedness stage, but the member check is a nonzero `xmllint` exit
status. -/
def validate_against_schema (env : Env) (f : UploadedFile) :
    Option ValidationError :=
  let file_type := splitext_ext f.name
  if file_type = ".zip" then
    match env.schemaExtract with
    | some folder_name =>
      if (env.listdir folder_name).any (fun file_name =>
          pyEndsWith file_name ".xml" && file_name != "om.xml" &&
            env.xmllint folder_name file_name != 0) then
        some .XmlSchemaConformityArchive
      else
        none
    | none => none
  else if file_type = ".xml" then
    if env.xmllintSingle ≠ 0 then some .XmlSchemaConformitySingle else none
  else
    none

/-- A validation verdict: acceptance, or rejection with the single
reported error. -/
inductive Verdict where
  | Accepted : Verdict
  | Rejected : ValidationError → Verdict
deriving DecidableEq, Repr

/-- Modelled from the spec: the upload form runs the validators strictly
in the order extension, size, MIME type, zip integrity, zip contents,
well-formedness, schema conformity (the form itself is framework glue and
not part of the repository sources). This list records each stage result
in that order. -/
def stage_results (s : Settings) (env : Env) (f : UploadedFile) :
    List (Option ValidationError) :=
  [validate_extension f,
   validate_size s f,
   validate_mime_type s env f,
   validate_zip_integrity env f,
   validate_zip_contents env f,
   validate_xml_well_formedness env f,
   validate_against_schema env f]

/-- Modelled from the spec: fail-fast composition, the first stage error
(if any) is the verdict. -/
def first_error : List (Option ValidationError) → Verdict
  | [] => .Accepted
  | some e :: _ => .Rejected e
  | none :: rest => first_error rest

/-- Modelled from the spec: the whole pipeline, `Accepted` when every
stage passes and otherwise `Rejected` with the first stage error. -/
def validate (s : Settings) (env : Env) (f : UploadedFile) : Verdict :=
  first_error (stage_results s env f)

/-! ### Concrete fixtures used by witnesses and counterexamples -/

/-- A concrete configuration: 1000000-byte limit and small allow-sets. -/
def s0 : Settings := ⟨1000000, ["application/xml", "text/xml"], ["application/zip"]⟩

/-- A benign environment: the sniffer reports `image/png`, the archive
opens cleanly and is empty, extraction never runs. -/
def env0 : Env := ⟨"upload.png: image/png", .tested none, .listed [], none,
  none, fun _ => [], fun _ _ => "", "", fun _ _ => 0, 0⟩

/-- An environment whose archive lists a single entry named `dataxml`. -/
def env_entry : Env := ⟨"", .tested none, .listed ["dataxml"], none, none,
  fun _ => [], fun _ _ => "", "", fun _ _ => 0, 0⟩

/-- An environment where opening the archive raises `IOError` and the
later stages also fail to open or extract it. -/
def env_ioerr : Env := ⟨"", .ioError, .failed, none, none, fun _ => [],
  fun _ _ => "", "", fun _ _ => 0, 0⟩

/-- An environment with an extracted folder whose member `bad.xml` fails
both external checks while `om.xml` and `good.xml` pass. -/
def env_member : Env := ⟨"", .tested none, .listed ["bad.xml"],
  some "folder", some "folder", fun _ => ["bad.xml", "om.xml", "good.xml"],
  fun _ fn => if fn = "bad.xml" then "not well-formed" else "", "",
  fun _ fn => if fn = "bad.xml" then 1 else 0, 0⟩

/-! ### Helper lemmas -/

theorem suffix_eq_of_length {α : Type} {l₁ l₂ L : List α} (h₁ : l₁ <:+ L)
    (h₂ : l₂ <:+ L) (h : l₁.length = l₂.length) : l₁ = l₂ := by
  obtain ⟨p₁, hp₁⟩ := h₁
  obtain ⟨p₂, hp₂⟩ := h₂
  exact (List.append_inj' (hp₁.trans hp₂.symm) h).2

theorem suffix_of_append_right {α : Type} {l B w : List α}
    (h : l <:+ B ++ w) (hl : l.length ≤ w.length) : l <:+ w := by
  obtain ⟨p, hp⟩ := h
  have hlen : p.length + l.length = B.length + w.length := by
    simpa using congrArg List.length hp
  have hsplit : p.take B.length ++ (p.drop B.length ++ l) = B ++ w := by
    rw [← List.append_assoc, List.take_append_drop]
    exact hp
  have htl : (p.take B.length).length = B.length := by
    rw [List.length_take]
    omega
  exact ⟨p.drop B.length, List.append_inj_right hsplit htl⟩

theorem toLower_eq_dot {c : Char} (h : Char.toLower c = '.') : c = '.' := by
  simp only [Char.toLower] at h
  split at h
  · next hc =>
    exfalso
    have hc2 : c = Char.ofNat c.toNat := (Char.ofNat_toNat c).symm
    obtain ⟨h4, h5⟩ := hc
    interval_cases h6 : c.toNat <;> simp_all
  · exact h

theorem pyEndsWith_iff {s t : String} :
    pyEndsWith s t = true ↔ t.data <:+ s.data := by
  simp [pyEndsWith]

theorem splitext_ext_suffix (name : String) :
    splitext_ext name = "" ∨ (splitext_ext name).data <:+ name.data := by
  unfold splitext_ext
  cases lastDotIndex name.data with
  | none => left; rfl
  | some i =>
    by_cases hall : (name.data.take i).all (fun c => c == '.')
    · left; simp [hall]
    · right; simp [hall]; exact List.drop_suffix i name.data

theorem splitext_of_append_eq {base v e : String}
    (hv : v.data.length = e.data.length) (he : e ≠ "")
    (h : splitext_ext (base ++ v) = e) : v = e := by
  rcases splitext_ext_suffix (base ++ v) with h0 | hsuf
  · rw [h] at h0
    exact absurd h0 he
  · rw [h, String.data_append] at hsuf
    have hv2 : v.data <:+ base.data ++ v.data := List.suffix_append _ _
    exact String.ext (suffix_eq_of_length hv2 hsuf hv)

theorem endsWith_zip_of_append {base v : String} (h4 : v.data.length = 4)
    (h : pyEndsWith (base ++ v) "zip" = true) :
    ∃ c, v.data = [c, 'z', 'i', 'p'] := by
  rw [pyEndsWith_iff, String.data_append] at h
  have h2 : "zip".data <:+ v.data :=
    suffix_of_append_right h (by rw [h4]; decide)
  obtain ⟨p, hp⟩ := h2
  have hp1 : p.length = 1 := by
    have := congrArg List.length hp
    simp [h4] at this
    omega
  rcases p with _ | ⟨c, p'⟩
  · simp at hp1
  · rcases p' with _ | ⟨d, p''⟩
    · refine ⟨c, ?_⟩
      rw [← hp]
      rfl
    · simp at hp1

/-! ### Claim C1 -/

/-- Claim C1 counterexample: the name `datazip` does not end, case
insensitively, in `.zip` or `.xml`, yet the extension stage passes it
(and the whole pipeline even accepts it), because the code tests the
dotless suffixes `zip` / `xml`. -/
theorem C1_counterexample :
    (pyEndsWith (pyLower "datazip") ".zip" = false ∧
     pyEndsWith (pyLower "datazip") ".xml" = false) ∧
    validate_extension ⟨"datazip", 1024⟩ = none ∧
    validate s0 env0 ⟨"datazip", 1024⟩ = .Accepted := by
  decide

/-- Claim C1 (amended): the extension stage rejects with the Extension
error exactly those candidates whose lowercased name ends in neither the
bare suffix `zip` nor `xml` (no dot required); in particular every
candidate whose name ends case-insensitively in `.zip` or `.xml` passes
the extension stage. -/
theorem C1_extension_check (f : UploadedFile) :
    (validate_extension f = some .Extension ↔
      ¬(pyEndsWith (pyLower f.name) "zip" = true ∨
        pyEndsWith (pyLower f.name) "xml" = true)) ∧
    ((pyEndsWith (pyLower f.name) ".zip" = true ∨
      pyEndsWith (pyLower f.name) ".xml" = true) →
      validate_extension f = none) := by
  constructor
  · unfold validate_extension
    by_cases h1 : pyEndsWith (pyLower f.name) "zip" <;>
      by_cases h2 : pyEndsWith (pyLower f.name) "xml" <;>
        simp [h1, h2]
  · rintro (h | h)
    · have hz : pyEndsWith (pyLower f.name) "zip" = true := by
        rw [pyEndsWith_iff] at h ⊢
        exact List.IsSuffix.trans (by decide) h
      unfold validate_extension
      simp [hz]
    · have hx : pyEndsWith (pyLower f.name) "xml" = true := by
        rw [pyEndsWith_iff] at h ⊢
        exact List.IsSuffix.trans (by decide) h
      unfold validate_extension
      simp [hx]

/-- Witness for C1: a concrete upper-case `.ZIP` name passes the
extension stage. -/
theorem C1_extension_check_witness :
    validate_extension ⟨"DATA.ZIP", 5⟩ = none :=
  (C1_extension_check ⟨"DATA.ZIP", 5⟩).2 (Or.inl (by decide))

/-! ### Claim C2 -/

/-- Claim C2 counterexample: a `.zip` candidate whose archive lists the
single entry `dataxml` — an entry that does not end in `.xml` — passes
the contents stage, because the code tests the dotless suffix `xml`. -/
theorem C2_counterexample :
    ("dataxml" ∈ ["dataxml"] ∧ pyEndsWith "dataxml" ".xml" = false) ∧
    env_entry.contents = .listed ["dataxml"] ∧
    validate_zip_contents env_entry ⟨"data.zip", 10⟩ = none := by
  refine ⟨by decide, rfl, by decide⟩

/-- Claim C2 (amended): for a `.zip` candidate whose archive listing
succeeds, the contents stage rejects with the ZipContents error exactly
when some entry name does not end in the bare suffix `xml` (no dot
required); in particular it passes whenever every entry name ends in
`.xml`. -/
theorem C2_zip_contents (env : Env) (f : UploadedFile) (names : List String)
    (hzip : pyEndsWith f.name ".zip" = true)
    (hc : env.contents = .listed names) :
    (validate_zip_contents env f = some .ZipContents ↔
      ∃ n, n ∈ names ∧ pyEndsWith n "xml" = false) ∧
    ((∀ n, n ∈ names → pyEndsWith n ".xml" = true) →
      validate_zip_contents env f = none) := by
  have hz : pyEndsWith f.name "zip" = true := by
    rw [pyEndsWith_iff] at hzip ⊢
    exact List.IsSuffix.trans (by decide) hzip
  unfold validate_zip_contents
  rw [hc]
  simp only [hz, if_true]
  constructor
  · by_cases hany : names.any (fun item => !(pyEndsWith item "xml")) <;>
      simp_all
  · intro hall
    have hfalse : names.any (fun item => !(pyEndsWith item "xml")) = false := by
      simp only [List.any_eq_false, Bool.not_eq_true']
      intro n hn
      have hx : pyEndsWith n "xml" = true := by
        have := hall n hn
        rw [pyEndsWith_iff] at this ⊢
        exact List.IsSuffix.trans (by decide) this
      simp [hx]
    simp [hfalse]

/-- Witness for C2: an archive listing exactly `doc.xml` passes the
contents stage of a `.zip` candidate. -/
theorem C2_zip_contents_witness :
    validate_zip_contents
      ⟨"", .tested none, .listed ["doc.xml"], none, none, fun _ => [],
       fun _ _ => "", "", fun _ _ => 0, 0⟩ ⟨"data.zip", 10⟩ = none :=
  (C2_zip_contents _ ⟨"data.zip", 10⟩ ["doc.xml"] (by decide) rfl).2
    (by decide)

/-! ### Claim C4 -/

/-- Claim C4: for a `.zip` candidate, the integrity stage raises exactly
when opening/testing the archive raised `IOError` or the integrity test
returned the (nonempty) name of a corrupted member; the two cases carry
the two archive-corruption messages respectively, and a `BadZipFile`
(openable but structurally invalid archive) is tolerated. -/
theorem C4_zip_integrity (env : Env) (f : UploadedFile)
    (hzip : pyEndsWith f.name ".zip" = true) :
    ((∃ e, validate_zip_integrity env f = some e) ↔
      (env.integrity = .ioError ∨
       ∃ n, env.integrity = .tested (some n) ∧ n ≠ "")) ∧
    (validate_zip_integrity env f = some .ZipIntegrityCorruptedArchive ↔
      env.integrity = .ioError) ∧
    (validate_zip_integrity env f = some .ZipIntegrityCorruptedFiles ↔
      ∃ n, env.integrity = .tested (some n) ∧ n ≠ "") ∧
    (env.integrity = .badZip → validate_zip_integrity env f = none) := by
  have hz : pyEndsWith f.name "zip" = true := by
    rw [pyEndsWith_iff] at hzip ⊢
    exact List.IsSuffix.trans (by decide) hzip
  unfold validate_zip_integrity
  simp only [hz, if_true]
  cases henv : env.integrity with
  | ioError => simp
  | badZip => simp
  | tested c =>
    cases c with
    | none => simp
    | some n => by_cases hn : n = "" <;> simp [hn]

/-- Witness for C4: an `IOError` while opening a `.zip` candidate yields
the corrupted-archive rejection. -/
theorem C4_zip_integrity_witness :
    validate_zip_integrity env_ioerr ⟨"upload.zip", 7⟩ =
      some .ZipIntegrityCorruptedArchive :=
  (C4_zip_integrity env_ioerr ⟨"upload.zip", 7⟩ (by decide)).2.1.mpr rfl

/-! ### Claim C5 -/

/-- Claim C5: for a `.zip` candidate, failures to open or extract the
archive at the stages after the integrity check are treated as nothing
to check: a failed `namelist` leaves the contents stage passing, and a
failed extraction leaves the well-formedness and schema stages passing. -/
theorem C5_extraction_failure_passes (env : Env) (f : UploadedFile)
    (hzip : pyEndsWith f.name ".zip" = true)
    (hc : env.contents = .failed) (hw : env.wfExtract = none)
    (hs : env.schemaExtract = none) :
    validate_zip_contents env f = none ∧
    validate_xml_well_formedness env f = none ∧
    validate_against_schema env f = none := by
  have hz : pyEndsWith f.name "zip" = true := by
    rw [pyEndsWith_iff] at hzip ⊢
    exact List.IsSuffix.trans (by decide) hzip
  have hnotxml : splitext_ext f.name ≠ ".xml" := by
    intro h
    rcases splitext_ext_suffix f.name with h0 | hsuf
    · rw [h] at h0
      exact absurd h0 (by decide)
    · rw [h] at hsuf
      rw [pyEndsWith_iff] at hzip
      have heq : ".xml".data = ".zip".data :=
        suffix_eq_of_length hsuf hzip (by decide)
      exact absurd heq (by decide)
  refine ⟨?_, ?_, ?_⟩
  · simp [validate_zip_contents, hz, hc]
  · unfold validate_xml_well_formedness
    by_cases hft : splitext_ext f.name = ".zip"
    · simp [hft, hw]
    · simp [hft, hnotxml]
  · unfold validate_against_schema
    by_cases hft : splitext_ext f.name = ".zip"
    · simp [hft, hs]
    · simp [hft, hnotxml]

/-- Witness for C5: with every later open/extract failing, all three
later stages pass on a `.zip` candidate. -/
theorem C5_extraction_failure_passes_witness :
    validate_zip_contents env_ioerr ⟨"broken.zip", 9⟩ = none ∧
    validate_xml_well_formedness env_ioerr ⟨"broken.zip", 9⟩ = none ∧
    validate_against_schema env_ioerr ⟨"broken.zip", 9⟩ = none :=
  C5_extraction_failure_passes env_ioerr ⟨"broken.zip", 9⟩ (by decide)
    rfl rfl rfl

/-! ### Claim C3 -/

theorem data_dot_zip : ".zip".data = ['.', 'z', 'i', 'p'] := rfl

theorem data_dot_xml : ".xml".data = ['.', 'x', 'm', 'l'] := rfl

/-- Claim C3: a candidate whose name ends in an uppercase or mixed-case
variant of `.zip` or `.xml` (it lowercases to `.zip`/`.xml` but differs
from it) passes the extension stage, while the MIME-type, zip-integrity,
zip-contents, well-formedness and schema stages perform no inspection and
raise no error — whatever the environment reports — because they compare
the `splitext` extension case-sensitively against `.zip`/`.xml` or use
the case-sensitive dotless suffix test `endswith('zip')`; such a
candidate is accepted whenever its size does not exceed
`MAX_UPLOAD_SIZE`. -/
theorem C3_mixed_case_bypass (s : Settings) (env : Env) (base v : String)
    (hlow : pyLower v = ".zip" ∨ pyLower v = ".xml")
    (hmixed : v ≠ pyLower v)
    (size : Nat) (hsize : size ≤ s.MAX_UPLOAD_SIZE) :
    validate_extension ⟨base ++ v, size⟩ = none ∧
    validate_size s ⟨base ++ v, size⟩ = none ∧
    validate_mime_type s env ⟨base ++ v, size⟩ = none ∧
    validate_zip_integrity env ⟨base ++ v, size⟩ = none ∧
    validate_zip_contents env ⟨base ++ v, size⟩ = none ∧
    validate_xml_well_formedness env ⟨base ++ v, size⟩ = none ∧
    validate_against_schema env ⟨base ++ v, size⟩ = none ∧
    validate s env ⟨base ++ v, size⟩ = .Accepted := by
  have hlen4 : v.data.length = 4 := by
    rcases hlow with h | h <;>
      simpa [pyLower] using (congrArg List.length (congrArg String.data h))
  have hvzip : v ≠ ".zip" := by
    intro hv
    rcases hlow with h | h
    · exact hmixed (hv.trans h.symm)
    · rw [hv] at h
      exact absurd h (by decide)
  have hvxml : v ≠ ".xml" := by
    intro hv
    rcases hlow with h | h
    · rw [hv] at h
      exact absurd h (by decide)
    · exact hmixed (hv.trans h.symm)
  have hnozip : pyEndsWith (base ++ v) "zip" = false := by
    by_contra hh
    rw [Bool.not_eq_false] at hh
    obtain ⟨c, hc⟩ := endsWith_zip_of_append hlen4 hh
    rcases hlow with h | h
    · have hmap2 : v.data.map Char.toLower = ['.', 'z', 'i', 'p'] := by
        rw [← data_dot_zip]
        exact congrArg String.data h
      rw [hc] at hmap2
      simp only [List.map_cons, List.map_nil, List.cons.injEq, and_true] at hmap2
      have hcd : c = '.' := toLower_eq_dot hmap2.1
      apply hvzip
      apply String.ext
      rw [hc, hcd, data_dot_zip]
    · have hmap2 : v.data.map Char.toLower = ['.', 'x', 'm', 'l'] := by
        rw [← data_dot_xml]
        exact congrArg String.data h
      rw [hc] at hmap2
      simp only [List.map_cons, List.map_nil, List.cons.injEq, and_true] at hmap2
      exact absurd hmap2.2.1 (by decide)
  have hextzip : splitext_ext (base ++ v) ≠ ".zip" := by
    intro h
    exact hvzip (splitext_of_append_eq (by rw [hlen4]; decide) (by decide) h)
  have hextxml : splitext_ext (base ++ v) ≠ ".xml" := by
    intro h
    exact hvxml (splitext_of_append_eq (by rw [hlen4]; decide) (by decide) h)
  have hlowtail : pyEndsWith (pyLower (base ++ v)) "zip" = true ∨
      pyEndsWith (pyLower (base ++ v)) "xml" = true := by
    have hdata : (pyLower (base ++ v)).data
        = base.data.map Char.toLower ++ (pyLower v).data := by
      simp [pyLower, String.data_append]
    rcases hlow with h | h
    · left
      rw [pyEndsWith_iff, hdata, h, data_dot_zip]
      exact List.IsSuffix.trans (by decide) (List.suffix_append _ _)
    · right
      rw [pyEndsWith_iff, hdata, h, data_dot_xml]
      exact List.IsSuffix.trans (by decide) (List.suffix_append _ _)
  have hext_pass : validate_extension ⟨base ++ v, size⟩ = none := by
    unfold validate_extension
    rcases hlowtail with h | h <;> simp [h]
  have hsize_pass : validate_size s ⟨base ++ v, size⟩ = none := by
    have hng : ¬ (size > s.MAX_UPLOAD_SIZE) := by omega
    simp [validate_size, hng]
  have hmime_pass : validate_mime_type s env ⟨base ++ v, size⟩ = none := by
    simp [validate_mime_type, hextzip, hextxml]
  have hinteg_pass : validate_zip_integrity env ⟨base ++ v, size⟩ = none := by
    simp [validate_zip_integrity, hnozip]
  have hcont_pass : validate_zip_contents env ⟨base ++ v, size⟩ = none := by
    simp [validate_zip_contents, hnozip]
  have hwf_pass : validate_xml_well_formedness env ⟨base ++ v, size⟩ = none := by
    simp [validate_xml_well_formedness, hextzip, hextxml]
  have hschema_pass : validate_against_schema env ⟨base ++ v, size⟩ = none := by
    simp [validate_against_schema, hextzip, hextxml]
  refine ⟨hext_pass, hsize_pass, hmime_pass, hinteg_pass, hcont_pass,
    hwf_pass, hschema_pass, ?_⟩
  simp [validate, stage_results, first_error, hext_pass, hsize_pass,
    hmime_pass, hinteg_pass, hcont_pass, hwf_pass, hschema_pass]

/-- Witness for C3: `DATA.XML` of size 10 sails through every stage and
is accepted, in an environment whose tools would fail any candidate they
were actually asked about. -/
theorem C3_mixed_case_bypass_witness :
    validate_extension ⟨"DATA" ++ ".XML", 10⟩ = none ∧
    validate_size s0 ⟨"DATA" ++ ".XML", 10⟩ = none ∧
    validate_mime_type s0 env_member ⟨"DATA" ++ ".XML", 10⟩ = none ∧
    validate_zip_integrity env_member ⟨"DATA" ++ ".XML", 10⟩ = none ∧
    validate_zip_contents env_member ⟨"DATA" ++ ".XML", 10⟩ = none ∧
    validate_xml_well_formedness env_member ⟨"DATA" ++ ".XML", 10⟩ = none ∧
    validate_against_schema env_member ⟨"DATA" ++ ".XML", 10⟩ = none ∧
    validate s0 env_member ⟨"DATA" ++ ".XML", 10⟩ = .Accepted :=
  C3_mixed_case_bypass s0 env_member "DATA" ".XML" (Or.inr (by decide))
    (by decide) 10 (by decide)

/-! ### Claim C6 -/

theorem first_error_of_first_fail {l : List (Option ValidationError)}
    {i : Nat} {e : ValidationError}
    (hi : l[i]? = some (some e))
    (hprev : ∀ j, j < i → l[j]? = some none) :
    first_error l = .Rejected e := by
  induction l generalizing i with
  | nil => simp at hi
  | cons hd tl ih =>
    cases i with
    | zero =>
      simp at hi
      rw [hi]
      rfl
    | succ n =>
      have h0 : hd = none := by
        have := hprev 0 (Nat.succ_pos n)
        simpa using this
      subst h0
      show first_error tl = .Rejected e
      refine ih (by simpa using hi) (fun j hj => ?_)
      have := hprev (j + 1) (Nat.succ_lt_succ hj)
      simpa using this

theorem first_error_accepted_iff {l : List (Option ValidationError)} :
    first_error l = .Accepted ↔ ∀ o ∈ l, o = none := by
  induction l with
  | nil => simp [first_error]
  | cons hd tl ih =>
    cases hd with
    | none => simpa [first_error] using ih
    | some e => simp [first_error]

/-- Claim C6: the pipeline runs the stages in the fixed order extension,
size, MIME type, zip integrity, zip contents, well-formedness, schema
conformity (the order of `stage_results`); the verdict is the error of
the first failing stage — so at most one ValidationError is ever
reported — and it is `Accepted` exactly when every stage passes. -/
theorem C6_fail_fast (s : Settings) (env : Env) (f : UploadedFile) :
    (∀ (i : Nat) (e : ValidationError),
      (stage_results s env f)[i]? = some (some e) →
      (∀ (j : Nat), j < i → (stage_results s env f)[j]? = some none) →
      validate s env f = .Rejected e) ∧
    (validate s env f = .Accepted ↔
      ∀ o ∈ stage_results s env f, o = none) := by
  exact ⟨fun i e hi hprev => first_error_of_first_fail hi hprev,
    first_error_accepted_iff⟩

/-- Witness for C6: a `.png` candidate fails the first stage and the
pipeline reports exactly the Extension error. -/
theorem C6_fail_fast_witness :
    validate s0 env0 ⟨"upload.png", 1024⟩ = .Rejected .Extension :=
  (C6_fail_fast s0 env0 ⟨"upload.png", 1024⟩).1 0 .Extension (by decide)
    (fun j hj => absurd hj (Nat.not_lt_zero j))

/-! ### Claim C7 -/

/-- Claim C7: for a candidate whose `splitext` extension is `.zip`
(resp. `.xml`), the MIME stage rejects with a MimeType error carrying
that extension and the detected MIME string exactly when the detected
MIME type is outside the corresponding allow-set, and passes when it is
inside. -/
theorem C7_mime_allow_sets (s : Settings) (env : Env) (f : UploadedFile) :
    (splitext_ext f.name = ".zip" →
      (parse_mime env.mimeOutput ∉ s.ZIP_MIME_TYPES →
        validate_mime_type s env f =
          some (.MimeType ".zip" (parse_mime env.mimeOutput))) ∧
      (parse_mime env.mimeOutput ∈ s.ZIP_MIME_TYPES →
        validate_mime_type s env f = none)) ∧
    (splitext_ext f.name = ".xml" →
      (parse_mime env.mimeOutput ∉ s.XML_MIME_TYPES →
        validate_mime_type s env f =
          some (.MimeType ".xml" (parse_mime env.mimeOutput))) ∧
      (parse_mime env.mimeOutput ∈ s.XML_MIME_TYPES →
        validate_mime_type s env f = none)) := by
  constructor
  · intro hext
    have hne : splitext_ext f.name ≠ ".xml" := by rw [hext]; decide
    constructor
    · intro hnot
      simp [validate_mime_type, hext, hnot]
    · intro hin
      simp [validate_mime_type, hext, hne, hin]
  · intro hext
    have hne : splitext_ext f.name ≠ ".zip" := by rw [hext]; decide
    constructor
    · intro hnot
      simp [validate_mime_type, hext, hne, hnot]
    · intro hin
      simp [validate_mime_type, hext, hne, hin]

/-- Witness for C7: a `.zip` candidate sniffed as `image/png` is rejected
with that MIME string, and one sniffed as `application/zip` passes. -/
theorem C7_mime_allow_sets_witness :
    validate_mime_type s0 env0 ⟨"a.zip", 1⟩ =
      some (.MimeType ".zip" "image/png") ∧
    validate_mime_type s0
      ⟨"a.zip: application/zip", .tested none, .listed [], none, none,
       fun _ => [], fun _ _ => "", "", fun _ _ => 0, 0⟩
      ⟨"a.zip", 1⟩ = none :=
  ⟨((C7_mime_allow_sets s0 env0 ⟨"a.zip", 1⟩).1 (by decide)).1 (by decide),
   ((C7_mime_allow_sets s0 _ ⟨"a.zip", 1⟩).1 (by decide)).2 (by decide)⟩

/-! ### Claim C8 -/

theorem wf_any_iff (env : Env) (folder : String) :
    ((env.listdir folder).any (fun file_name =>
        pyEndsWith file_name ".xml" && file_name != "om.xml" &&
          env.xmlwf folder file_name != "") = true) ↔
    ∃ fn ∈ env.listdir folder,
      pyEndsWith fn ".xml" = true ∧ fn ≠ "om.xml" ∧
        env.xmlwf folder fn ≠ "" := by
  simp [List.any_eq_true, Bool.and_eq_true, bne_iff_ne, and_assoc]

theorem schema_any_iff (env : Env) (folder : String) :
    ((env.listdir folder).any (fun file_name =>
        pyEndsWith file_name ".xml" && file_name != "om.xml" &&
          env.xmllint folder file_name != 0) = true) ↔
    ∃ fn ∈ env.listdir folder,
      pyEndsWith fn ".xml" = true ∧ fn ≠ "om.xml" ∧
        env.xmllint folder fn ≠ 0 := by
  simp [List.any_eq_true, Bool.and_eq_true, bne_iff_ne, and_assoc]

/-- Claim C8: for a `.zip` candidate with an extracted folder, the
well-formedness and schema stages check exactly the listed entries whose
name ends in `.xml` other than `om.xml`; they reject — with the
member-anonymous archive-scoped error and no other — exactly when some
such entry fails its external check. -/
theorem C8_archive_members (env : Env) (f : UploadedFile) (folder : String)
    (hext : splitext_ext f.name = ".zip") :
    (env.wfExtract = some folder →
      (validate_xml_well_formedness env f =
          some .XmlWellFormednessArchive ↔
        ∃ fn ∈ env.listdir folder,
          pyEndsWith fn ".xml" = true ∧ fn ≠ "om.xml" ∧
            env.xmlwf folder fn ≠ "") ∧
      (validate_xml_well_formedness env f = none ∨
        validate_xml_well_formedness env f =
          some .XmlWellFormednessArchive)) ∧
    (env.schemaExtract = some folder →
      (validate_against_schema env f =
          some .XmlSchemaConformityArchive ↔
        ∃ fn ∈ env.listdir folder,
          pyEndsWith fn ".xml" = true ∧ fn ≠ "om.xml" ∧
            env.xmllint folder fn ≠ 0) ∧
      (validate_against_schema env f = none ∨
        validate_against_schema env f =
          some .XmlSchemaConformityArchive)) := by
  constructor
  · intro hw
    have hred : validate_xml_well_formedness env f =
        (if (env.listdir folder).any (fun file_name =>
            pyEndsWith file_name ".xml" && file_name != "om.xml" &&
              env.xmlwf folder file_name != "") then
          some .XmlWellFormednessArchive
        else none) := by
      simp [validate_xml_well_formedness, hext, hw]
    rw [hred]
    cases hb : (env.listdir folder).any (fun file_name =>
        pyEndsWith file_name ".xml" && file_name != "om.xml" &&
          env.xmlwf folder file_name != "") with
    | false =>
      refine ⟨⟨fun h => absurd h (by simp), fun hex => ?_⟩, Or.inl (by simp)⟩
      rw [← wf_any_iff] at hex
      rw [hb] at hex
      exact absurd hex (by simp)
    | true =>
      exact ⟨⟨fun _ => (wf_any_iff env folder).mp hb, fun _ => by simp⟩,
        Or.inr (by simp)⟩
  · intro hs
    have hred : validate_against_schema env f =
        (if (env.listdir folder).any (fun file_name =>
            pyEndsWith file_name ".xml" && file_name != "om.xml" &&
              env.xmllint folder file_name != 0) then
          some .XmlSchemaConformityArchive
        else none) := by
      simp [validate_against_schema, hext, hs]
    rw [hred]
    cases hb : (env.listdir folder).any (fun file_name =>
        pyEndsWith file_name ".xml" && file_name != "om.xml" &&
          env.xmllint folder file_name != 0) with
    | false =>
      refine ⟨⟨fun h => absurd h (by simp), fun hex => ?_⟩, Or.inl (by simp)⟩
      rw [← schema_any_iff] at hex
      rw [hb] at hex
      exact absurd hex (by simp)
    | true =>
      exact ⟨⟨fun _ => (schema_any_iff env folder).mp hb, fun _ => by simp⟩,
        Or.inr (by simp)⟩

/-- Witness for C8: in `env_member` the extracted folder contains
`bad.xml` failing both tools, so both stages report the archive-scoped
errors. -/
theorem C8_archive_members_witness :
    validate_xml_well_formedness env_member ⟨"arch.zip", 3⟩ =
      some .XmlWellFormednessArchive ∧
    validate_against_schema env_member ⟨"arch.zip", 3⟩ =
      some .XmlSchemaConformityArchive :=
  ⟨((C8_archive_members env_member ⟨"arch.zip", 3⟩ "folder"
        (by decide)).1 rfl).1.mpr
      ⟨"bad.xml", by decide, by decide, by decide, by decide⟩,
   ((C8_archive_members env_member ⟨"arch.zip", 3⟩ "folder"
        (by decide)).2 rfl).1.mpr
      ⟨"bad.xml", by decide, by decide, by decide, by decide⟩⟩

/-! ### Claim C9 -/

/-- Claim C9: a candidate strictly larger than `MAX_UPLOAD_SIZE` is
rejected by the size stage with the limit in MB (floor of
`MAX_UPLOAD_SIZE / 1024^2`) regardless of any content the environment
reports — for an extension-valid candidate the whole pipeline reports
exactly that error — and a candidate of size exactly `MAX_UPLOAD_SIZE`
passes the size stage. -/
theorem C9_size_limit (s : Settings) (env : Env) (f : UploadedFile) :
    (f.size > s.MAX_UPLOAD_SIZE →
      validate_size s f = some (.Size (s.MAX_UPLOAD_SIZE / 1024 ^ 2)) ∧
      (validate_extension f = none →
        validate s env f =
          .Rejected (.Size (s.MAX_UPLOAD_SIZE / 1024 ^ 2)))) ∧
    (f.size = s.MAX_UPLOAD_SIZE → validate_size s f = none) := by
  constructor
  · intro hgt
    have hv : validate_size s f =
        some (.Size (s.MAX_UPLOAD_SIZE / 1024 ^ 2)) := by
      simp [validate_size, hgt]
    refine ⟨hv, fun hext => ?_⟩
    simp [validate, stage_results, first_error, hext, hv]
  · intro heq
    have hng : ¬ (f.size > s.MAX_UPLOAD_SIZE) := by omega
    simp [validate_size, hng]

/-- Witness for C9: one byte over the limit rejects (whole pipeline
included), exactly at the limit passes. -/
theorem C9_size_limit_witness :
    validate_size s0 ⟨"big.zip", 1000001⟩ = some (.Size 0) ∧
    validate s0 env0 ⟨"big.zip", 1000001⟩ = .Rejected (.Size 0) ∧
    validate_size s0 ⟨"big.zip", 1000000⟩ = none :=
  ⟨((C9_size_limit s0 env0 ⟨"big.zip", 1000001⟩).1 (by decide)).1,
   ((C9_size_limit s0 env0 ⟨"big.zip", 1000001⟩).1 (by decide)).2 (by decide),
   (C9_size_limit s0 env0 ⟨"big.zip", 1000000⟩).2 (by decide)⟩

/-! ### Claim C10 -/

/-- Claim C10: the MIME stage is total in the sniffer output — its only
outcomes are passing or a MimeType rejection. The parse takes the last
colon-separator token, empty (or all-whitespace) output parses to the
empty MIME string, and for a `.zip`/`.xml` candidate whose allow-set
excludes the empty string that yields a MimeType rejection, not a crash. -/
theorem C10_mime_no_crash (s : Settings) (env : Env) (f : UploadedFile) :
    (validate_mime_type s env f = none ∨
      ∃ ext mime, validate_mime_type s env f = some (.MimeType ext mime)) ∧
    (py_strip env.mimeOutput = "" → parse_mime env.mimeOutput = "") ∧
    (py_strip env.mimeOutput = "" → splitext_ext f.name = ".zip" →
      "" ∉ s.ZIP_MIME_TYPES →
      validate_mime_type s env f = some (.MimeType ".zip" "")) ∧
    (py_strip env.mimeOutput = "" → splitext_ext f.name = ".xml" →
      "" ∉ s.XML_MIME_TYPES →
      validate_mime_type s env f = some (.MimeType ".xml" "")) := by
  have hparse : py_strip env.mimeOutput = "" →
      parse_mime env.mimeOutput = "" := by
    intro h
    unfold parse_mime
    rw [h]
    rfl
  refine ⟨?_, hparse, ?_, ?_⟩
  · unfold validate_mime_type
    by_cases h1 : splitext_ext f.name = ".zip" ∧
        parse_mime env.mimeOutput ∉ s.ZIP_MIME_TYPES
    · exact Or.inr ⟨".zip", parse_mime env.mimeOutput, by simp [h1]⟩
    · by_cases h2 : splitext_ext f.name = ".xml" ∧
          parse_mime env.mimeOutput ∉ s.XML_MIME_TYPES
      · exact Or.inr ⟨".xml", parse_mime env.mimeOutput, by simp [h1, h2]⟩
      · exact Or.inl (by simp [h1, h2])
  · intro h hext hnot
    have hp := hparse h
    simp [validate_mime_type, hext, hp, hnot]
  · intro h hext hnot
    have hp := hparse h
    have hne : splitext_ext f.name ≠ ".zip" := by rw [hext]; decide
    simp [validate_mime_type, hext, hp, hnot, hne]

/-- Witness for C10: empty sniffer output on a `.zip` candidate yields a
MimeType rejection with the empty MIME string. -/
theorem C10_mime_no_crash_witness :
    validate_mime_type s0 env_entry ⟨"u.zip", 1⟩ =
      some (.MimeType ".zip" "") :=
  (C10_mime_no_crash s0 env_entry ⟨"u.zip", 1⟩).2.2.1 (by decide)
    (by decide) (by decide)
